import Mathlib

set_option maxRecDepth 100000

/-!
Verification of the go-lrzsz ZMODEM engine against its design specification.

The definitions below are a shallow embedding of the Go source (package
zmodem).  Byte streams are `List Nat` with every element a byte value;
machine-integer truncations of the Go code are written explicitly with
`% 256`, `% 65536` and `% 4294967296`.  The I/O readers of the source are
replaced by explicit stream passing: a read consumes the head of the list,
and an exhausted list corresponds to the read error / EOF path of the code.
-/

namespace GoLrzsz

/-! ## Constants (from zmodem.go) -/

def ZPAD : Nat := 0x2A
def ZDLE : Nat := 0x18
def ZBIN : Nat := 0x41
def ZHEX : Nat := 0x42
def ZBIN32 : Nat := 0x43
def CAN : Nat := 0x18
def XON : Nat := 0x11
def XOFF : Nat := 0x13

def ZRQINIT : Nat := 0
def ZRINIT : Nat := 1
def ZSINIT : Nat := 2
def ZACK : Nat := 3
def ZFILE : Nat := 4
def ZSKIP : Nat := 5
def ZNAK : Nat := 6
def ZABORT : Nat := 7
def ZFIN : Nat := 8
def ZRPOS : Nat := 9
def ZDATA : Nat := 10
def ZEOF : Nat := 11
def ZFERR : Nat := 12
def ZCRC : Nat := 13
def ZCHALLENGE : Nat := 14
def ZCOMPL : Nat := 15
def ZCAN : Nat := 16
def ZFREECNT : Nat := 17
def ZCOMMAND : Nat := 18
def ZSTDERR : Nat := 19

/-- TIMEOUT sentinel frame type (never on the wire). -/
def TIMEOUTc : Int := -2

def ZCRCE : Nat := 0x68
def ZCRCG : Nat := 0x69
def ZCRCQ : Nat := 0x6A
def ZCRCW : Nat := 0x6B
def ZRUB0 : Nat := 0x6C
def ZRUB1 : Nat := 0x6D

def GOTOR : Nat := 0x400
def GOTCRCE : Nat := ZCRCE ||| GOTOR
def GOTCRCG : Nat := ZCRCG ||| GOTOR
def GOTCRCQ : Nat := ZCRCQ ||| GOTOR
def GOTCRCW : Nat := ZCRCW ||| GOTOR
def GOTCAN : Nat := GOTOR ||| 0x18

def CANFDX : Nat := 0x01
def CANFC32 : Nat := 0x20
def ESCCTL : Nat := 0x40
def TESCCTL : Nat := 0x40

/-! ## CRC engine

Modelled from the spec: the CRC engine source (component C2, functions
`updcrc16`, `updcrc32`, `CRC16Finalize`, `CRC32Finalize` and the constant
`CRC32CheckValue`) is not among the provided source files; only its callers
are.  The definitions follow spec section 4.1 word for word: CCITT-16 with
polynomial x16+x12+x5+1 (0x1021), initial register 0, table-driven update
`crc = (crc<<8) ^ table[(crc>>8) ^ byte]`, finalization appending two zero
bytes; CRC-32 with the reflected Ethernet polynomial (0xEDB88320), initial
0xFFFFFFFF, update `crc = (crc>>8) ^ table[(crc ^ byte) & 0xFF]`,
finalization XOR 0xFFFFFFFF, check constant 0xDEBB20E3.  The tables are
expressed as the usual 8-fold polynomial step applied to the index.

One reconciliation was needed: the spec simultaneously requires (a) the
CCITT update, (b) finalization by appending two zero bytes, and (c) that
folding a correctly received header and its CRC bytes leaves the register
at 0.  With the textbook update `(crc<<8) ^ table[(crc>>8) ^ byte]`,
property (c) holds only without the zero-append finalization, so (a)-(c)
are jointly unsatisfiable in that form.  They are satisfied exactly by the
classic zmodem macro form `table[(crc>>8) & 0xFF] ^ (crc<<8) ^ byte`,
which is therefore used here; it is the only reading under which the
readers and writers of part_000 can accept each other's frames. -/

def crc16TabEntry (n : Nat) : Nat :=
  let step := fun v => if v &&& 0x8000 ≠ 0 then ((v <<< 1) ^^^ 0x1021) &&& 0xFFFF
                       else (v <<< 1) &&& 0xFFFF
  step (step (step (step (step (step (step (step ((n &&& 0xFF) <<< 8))))))))

/-- Modelled from the spec: CCITT-16 incremental update (section 4.1), in
the zmodem macro form described above. -/
def updcrc16 (b : Nat) (crc : Nat) : Nat :=
  (crc16TabEntry ((crc >>> 8) &&& 0xFF) ^^^ (crc <<< 8) ^^^ b) &&& 0xFFFF

/-- Modelled from the spec: finalization appends two zero bytes. -/
def crc16Fin (crc : Nat) : Nat := updcrc16 0 (updcrc16 0 crc)

def crc32TabEntry (n : Nat) : Nat :=
  let step := fun v => if v &&& 1 ≠ 0 then (v >>> 1) ^^^ 0xEDB88320 else v >>> 1
  step (step (step (step (step (step (step (step (n &&& 0xFF))))))))

/-- Modelled from the spec: reflected CRC-32 incremental update. -/
def updcrc32 (b : Nat) (crc : Nat) : Nat :=
  (crc >>> 8) ^^^ crc32TabEntry ((crc ^^^ b) &&& 0xFF)

/-- Modelled from the spec: CRC-32 finalization XORs by 0xFFFFFFFF. -/
def crc32Fin (crc : Nat) : Nat := crc ^^^ 0xFFFFFFFF

/-- Modelled from the spec: pre-finalization check constant for receive. -/
def CRC32CheckValue : Nat := 0xDEBB20E3

/-! ## Headers (part_000, `Header`, `stohdr`, `rclhdr`)

`p0` is the low-order position byte (ZP0); the flag bytes are read from the
other end: ZF0 = index 3, ZF1 = index 2, etc. -/

structure Hdr where
  p0 : Nat
  p1 : Nat
  p2 : Nat
  p3 : Nat
deriving DecidableEq, Repr

/-- `stohdr` stores a 32-bit position little-endian (part_000). -/
def stohdr (pos : Nat) : Hdr :=
  ⟨pos % 256, (pos >>> 8) % 256, (pos >>> 16) % 256, (pos >>> 24) % 256⟩

/-- `rclhdr` recovers the little-endian 32-bit position (part_000). -/
def rclhdr (h : Hdr) : Nat :=
  (h.p0 % 256) ||| ((h.p1 % 256) <<< 8) ||| ((h.p2 % 256) <<< 16) ||| ((h.p3 % 256) <<< 24)

/-! ## Escape codec encoder (part_002, `newZsendlineEscaper` / `WriteByte`) -/

inductive EscapeType
  | escapeNone
  | escapeAlways
  | escapeConditional
deriving DecidableEq, Repr

/-- The escape table built by `newZsendlineEscaper` in part_002, as a
function of the byte index and the two configuration booleans. -/
def zsendlineTab (zctlesc turboEscape : Bool) (i : Nat) : EscapeType :=
  if i &&& 0x60 ≠ 0 then .escapeNone
  else if i = ZDLE ∨ i = XOFF ∨ i = XON ∨ i = XOFF ||| 0x80 ∨ i = XON ||| 0x80 then
    .escapeAlways
  else if i = 0x20 ∨ i = 0xA0 then
    (if turboEscape then .escapeNone else .escapeAlways)
  else if i = 0x0D ∨ i = 0x8D then
    (if zctlesc then .escapeAlways
     else if !turboEscape then .escapeConditional
     else .escapeNone)
  else if zctlesc then .escapeAlways
  else .escapeNone

/-- `zsendlineEscaper.WriteByte` (part_002): emitted bytes paired with the
updated `lastSent` state. -/
def zsendline (zctlesc turboEscape : Bool) (lastSent : Nat) (c : Nat) :
    List Nat × Nat :=
  let c := c % 256
  match zsendlineTab zctlesc turboEscape c with
  | .escapeNone => ([c], c)
  | .escapeAlways => ([ZDLE, c ^^^ 0x40], c ^^^ 0x40)
  | .escapeConditional =>
      if lastSent &&& 0x7F = 0x40 then ([ZDLE, c ^^^ 0x40], c ^^^ 0x40)
      else ([c], c)

/-- `zsendlineEscaper.Write` (part_002): byte-by-byte escaping of a buffer,
threading `lastSent`. -/
def zsendlineWrite (zctlesc turboEscape : Bool) (lastSent : Nat) :
    List Nat → List Nat × Nat
  | [] => ([], lastSent)
  | b :: bs =>
      let r := zsendline zctlesc turboEscape lastSent b
      let rest := zsendlineWrite zctlesc turboEscape r.2 bs
      (r.1 ++ rest.1, rest.2)

/-! ## Escape codec decoder (part_002, `zdlreadUnescaper`) -/

/-- Result of one `ReadByte` of the unescaper: a value (a plain byte or one
of the `GOT...` sentinels) with the remaining stream, an I/O error
(stream exhausted), or the invalid-escape error of `readEscapeSequence`. -/
inductive ZdlResult
  | ok (v : Nat) (rest : List Nat)
  | ioErr
  | badEscape
deriving DecidableEq, Repr

/-- The CAN-counting loop inside `readEscapeSequence` (part_002): after
ZDLE CAN, four further bytes must all be CAN to yield `GOTCAN`; the first
non-CAN byte is consumed and the literal CAN is returned. -/
def readEscCans : Nat → List Nat → ZdlResult
  | 0, rest => .ok GOTCAN rest
  | _ + 1, [] => .ioErr
  | k + 1, c :: rest => if c = CAN then readEscCans k rest else .ok CAN rest

/-- `zdlreadUnescaper.readEscapeSequence` (part_002).  Note the final
condition `(c & 0x80) == 0x40` transcribed verbatim from the source. -/
def readEscapeSequence : List Nat → ZdlResult
  | [] => .ioErr
  | c :: rest =>
      if c = CAN then readEscCans 4 rest
      else if c = ZCRCE then .ok GOTCRCE rest
      else if c = ZCRCG then .ok GOTCRCG rest
      else if c = ZCRCQ then .ok GOTCRCQ rest
      else if c = ZCRCW then .ok GOTCRCW rest
      else if c = ZRUB0 then .ok 0x7F rest
      else if c = ZRUB1 then .ok 0xFF rest
      else if c = XON ∨ c = XON ||| 0x80 ∨ c = XOFF ∨ c = XOFF ||| 0x80 then
        readEscapeSequence rest
      else if c &&& 0x80 = 0x40 then .ok (c ^^^ 0x40) rest
      else .badEscape

/-- `zdlreadUnescaper.ReadByte` together with `readByte2` (part_002). -/
def zdlread : List Nat → ZdlResult
  | [] => .ioErr
  | c :: rest =>
      if c &&& 0x60 ≠ 0 then .ok c rest
      else if c = ZDLE then readEscapeSequence rest
      else if c = XON ∨ c = XON ||| 0x80 ∨ c = XOFF ∨ c = XOFF ||| 0x80 then
        zdlread rest
      else .ok c rest

end GoLrzsz

namespace GoLrzsz

/-! ## First facts about the codec -/

example : (zsendlineWrite false false 0 [ZDLE]).1 = [0x18, 0x58] := by decide

example : zdlread [0x18, 0x58] = .badEscape := by decide

/-- C1: the claim states that decoding inverts encoding for every
configuration, and in particular that a ZDLE-introduced value with bit 6
set and bit 7 clear decodes to value XOR 0x40.  On the code this fails:
`readEscapeSequence` tests `(c & 0x80) == 0x40`, which no byte satisfies,
so the escaped form of ZDLE itself (wire bytes 0x18 0x58, produced by the
encoder under all four configurations) is rejected as a bad escape
sequence instead of decoding back to 0x18. -/
theorem c1_escaped_byte_rejected :
    (∀ zctlesc turboEscape : Bool,
       (zsendlineWrite zctlesc turboEscape 0 [ZDLE]).1 = [0x18, 0x58]) ∧
    zdlread [0x18, 0x58] = .badEscape ∧
    (∀ c : Fin 256, decide ((c : Nat) &&& 0x80 = 0x40) = false) := by
  refine ⟨by decide, by decide, by decide⟩

/-! ## Header codecs (part_000) -/

/-- The lowercase digit table of `zputhex`. -/
def hexDigitsList : List Nat := [48, 49, 50, 51, 52, 53, 54, 55, 56, 57, 97, 98, 99, 100, 101, 102]

/-- `zputhex` (part_000): one byte as two lowercase hex digit codes. -/
def zputhex (c : Nat) : List Nat :=
  [hexDigitsList.getD ((c &&& 0xF0) >>> 4) 0, hexDigitsList.getD (c &&& 0x0F) 0]

/-- `hexDigitValue` (part_000); -1 for a non-digit. -/
def hexDigitValue (c : Nat) : Int :=
  if 0x30 ≤ c ∧ c ≤ 0x39 then (c : Int) - 0x30
  else if 0x61 ≤ c ∧ c ≤ 0x66 then (c : Int) - 0x61 + 10
  else if 0x41 ≤ c ∧ c ≤ 0x46 then (c : Int) - 0x41 + 10
  else -1

inductive HexRes
  | ok (v : Nat) (rest : List Nat)
  | ioErr
  | invalidHex
deriving DecidableEq, Repr

/-- `zgethex` (part_000): read two hex digits into a byte. -/
def zgethex : List Nat → HexRes
  | c1 :: c2 :: rest =>
      let n := hexDigitValue c1
      if n < 0 then .invalidHex
      else
        let c := hexDigitValue c2
        if c < 0 then .invalidHex
        else .ok ((n.toNat <<< 4) ||| c.toNat) rest
  | _ => .ioErr

inductive HexNRes
  | ok (vals : List Nat) (rest : List Nat)
  | ioErr
  | invalidHex
deriving DecidableEq, Repr

/-- Sequence of `zgethex` reads, as performed by `zrhhdr`. -/
def zgethexN : Nat → List Nat → HexNRes
  | 0, s => .ok [] s
  | n + 1, s =>
      match zgethex s with
      | .ioErr => .ioErr
      | .invalidHex => .invalidHex
      | .ok v s1 =>
          match zgethexN n s1 with
          | .ok vs s2 => .ok (v :: vs) s2
          | .ioErr => .ioErr
          | .invalidHex => .invalidHex

inductive ReadNRes
  | ok (vals : List Nat) (rest : List Nat)
  | ioErr
  | badEscape
deriving DecidableEq, Repr

/-- Sequence of unescaper `ReadByte` calls, as performed by the binary
header readers. -/
def zdlreadN : Nat → List Nat → ReadNRes
  | 0, s => .ok [] s
  | n + 1, s =>
      match zdlread s with
      | .ioErr => .ioErr
      | .badEscape => .badEscape
      | .ok v s1 =>
          match zdlreadN n s1 with
          | .ok vs s2 => .ok (v :: vs) s2
          | .ioErr => .ioErr
          | .badEscape => .badEscape

/-- Result of a header reader. -/
inductive HdrRes
  | ok (ft : Nat) (hdr : Hdr) (rest : List Nat)
  | crcErr
  | badEscape
  | ioErr
  | invalidHex
deriving DecidableEq, Repr

/-- `zrbhdr` (part_000): binary header with 16-bit CRC.  Type, the four
header bytes and the two CRC bytes come through the unescaper; the folded
CRC register must be 0. -/
def zrbhdr (s : List Nat) : HdrRes :=
  match zdlreadN 7 s with
  | .ioErr => .ioErr
  | .badEscape => .badEscape
  | .ok vals rest =>
      match vals with
      | [t, h0, h1, h2, h3, chi, clo] =>
          let crc := updcrc16 (clo % 256) (updcrc16 (chi % 256)
            (updcrc16 (h3 % 256) (updcrc16 (h2 % 256) (updcrc16 (h1 % 256)
              (updcrc16 (h0 % 256) (updcrc16 (t % 256) 0))))))
          if crc ≠ 0 then .crcErr
          else .ok t ⟨h0 % 256, h1 % 256, h2 % 256, h3 % 256⟩ rest
      | _ => .ioErr

/-- `zrbhdr32` (part_000): binary header with 32-bit CRC; the folded
register must equal the check constant. -/
def zrbhdr32 (s : List Nat) : HdrRes :=
  match zdlreadN 9 s with
  | .ioErr => .ioErr
  | .badEscape => .badEscape
  | .ok vals rest =>
      match vals with
      | [t, h0, h1, h2, h3, c0, c1, c2, c3] =>
          let crc := updcrc32 (c3 % 256) (updcrc32 (c2 % 256) (updcrc32 (c1 % 256)
            (updcrc32 (c0 % 256) (updcrc32 (h3 % 256) (updcrc32 (h2 % 256)
              (updcrc32 (h1 % 256) (updcrc32 (h0 % 256)
                (updcrc32 (t % 256) 0xFFFFFFFF))))))))
          if crc ≠ CRC32CheckValue then .crcErr
          else .ok t ⟨h0 % 256, h1 % 256, h2 % 256, h3 % 256⟩ rest
      | _ => .ioErr

/-- `zrhhdr` (part_000): hex header reader.  Reads seven hex byte pairs,
verifies the folded CRC register is 0, then consumes (up to) two trailing
CR/LF bytes. -/
def zrhhdr (s : List Nat) : HdrRes :=
  match zgethexN 7 s with
  | .ioErr => .ioErr
  | .invalidHex => .invalidHex
  | .ok vals rest =>
      match vals with
      | [t, h0, h1, h2, h3, chi, clo] =>
          let crc := updcrc16 clo (updcrc16 chi (updcrc16 h3 (updcrc16 h2
            (updcrc16 h1 (updcrc16 h0 (updcrc16 t 0))))))
          if crc ≠ 0 then .crcErr
          else .ok t ⟨h0, h1, h2, h3⟩ (rest.drop 2)
      | _ => .ioErr

/-- `zshhdr` (part_000): the exact byte sequence of a hex header,
including the 0x0D 0x8A trailer and the final 0x21 byte the source emits
(with the comment `// XON`) for types other than ZFIN and ZACK. -/
def zshhdr (frameType : Nat) (hdr : Hdr) : List Nat :=
  let t := frameType &&& 0x7F
  let crc := crc16Fin (updcrc16 hdr.p3 (updcrc16 hdr.p2 (updcrc16 hdr.p1
    (updcrc16 hdr.p0 (updcrc16 t 0)))))
  [ZPAD, ZPAD, ZDLE, ZHEX] ++ zputhex t
    ++ zputhex hdr.p0 ++ zputhex hdr.p1 ++ zputhex hdr.p2 ++ zputhex hdr.p3
    ++ zputhex ((crc >>> 8) &&& 0xFF) ++ zputhex (crc &&& 0xFF)
    ++ [0x0D, 0x8A]
    ++ (if frameType ≠ ZFIN ∧ frameType ≠ ZACK then [0x21] else [])

/-- Body of `zsbhdr` after the ZBIN discriminator (part_000): frame type,
header bytes and the two finalized CRC bytes, all through a fresh escaper
configured (false, false) as in the source. -/
def zsbhdr16Body (frameType : Nat) (hdr : Hdr) : List Nat :=
  let t := frameType % 256
  let crc := crc16Fin (updcrc16 hdr.p3 (updcrc16 hdr.p2 (updcrc16 hdr.p1
    (updcrc16 hdr.p0 (updcrc16 t 0)))))
  (zsendlineWrite false false 0
    [t, hdr.p0, hdr.p1, hdr.p2, hdr.p3, (crc >>> 8) % 256, crc % 256]).1

/-- Body of `zsbhdr32` after the ZBIN32 discriminator (part_000): the four
CRC bytes are little-endian and all go through the escaper. -/
def zsbhdr32Body (frameType : Nat) (hdr : Hdr) : List Nat :=
  let t := frameType % 256
  let crc := crc32Fin (updcrc32 hdr.p3 (updcrc32 hdr.p2 (updcrc32 hdr.p1
    (updcrc32 hdr.p0 (updcrc32 t 0xFFFFFFFF)))))
  (zsendlineWrite false false 0
    [t, hdr.p0, hdr.p1, hdr.p2, hdr.p3,
     crc % 256, (crc >>> 8) % 256, (crc >>> 16) % 256, (crc >>> 24) % 256]).1

/-- `zsbhdr` (part_000): optional escaped NUL preamble for ZDATA, then the
raw ZPAD ZDLE prefix and the discriminated body. -/
def zsbhdr (zctlesc turboEscape : Bool) (lastSent : Nat) (use32bitCRC : Bool)
    (znulls : Nat) (frameType : Nat) (hdr : Hdr) : List Nat :=
  (if frameType = ZDATA then
     (zsendlineWrite zctlesc turboEscape lastSent (List.replicate znulls 0)).1
   else [])
  ++ [ZPAD, ZDLE]
  ++ (if use32bitCRC then ZBIN32 :: zsbhdr32Body frameType hdr
      else ZBIN :: zsbhdr16Body frameType hdr)

/-! ## Header scanning (`getHeader` of sender.go and part_000) -/

/-- `zmodemIO.noxrd7` (io.go): read a byte masked to 7 bits, silently
skipping XON and XOFF. -/
def noxrd7 : List Nat → Option (Nat × List Nat)
  | [] => none
  | c :: rest =>
      let c := c &&& 0x7F
      if c = XON ∨ c = XOFF then noxrd7 rest
      else some (c, rest)

/-- Result of a `getHeader` call. -/
inductive GHRes
  | frame (ft : Nat) (hdr : Hdr) (rest : List Nat)
  | timeout
  | zcan
  | garbageHit
  | zcrcwSeq
  | crcErr
  | badEscape
  | invalidHex
  | ioErrOut
  | fuelOut
deriving DecidableEq, Repr

def mapHdrRes : HdrRes → GHRes
  | .ok t h rest => .frame t h rest
  | .crcErr => .crcErr
  | .badEscape => .badEscape
  | .ioErr => .ioErrOut
  | .invalidHex => .invalidHex

/-- The CAN-counting loop of `Sender.getHeader` (sender.go), entered after
a first CAN byte with `cancount = 5`.  `some r` is a direct return; `none`
falls through to the garbage accounting with the remaining stream. -/
def senderCanScan : Nat → List Nat → Option GHRes × List Nat
  | 0, s => (some .zcan, s)
  | _ + 1, [] => (some .timeout, [])
  | k + 1, c2 :: s =>
      if c2 = CAN then (if k = 0 then (some .zcan, s) else senderCanScan k s)
      else if c2 = ZCRCW then (some .zcrcwSeq, s)
      else if k = 0 then (some .zcan, s)
      else (none, s)

/-- The CAN-counting loop of `Receiver.getHeader` (part_000) and of the
inner post-ZDLE CAN case of both getHeaders: identical to the sender's
outer loop but without the ZCRCW check. -/
def plainCanScan : Nat → List Nat → Option GHRes × List Nat
  | 0, s => (some .zcan, s)
  | _ + 1, [] => (some .timeout, [])
  | k + 1, c2 :: s =>
      if c2 = CAN then (if k = 0 then (some .zcan, s) else plainCanScan k s)
      else if k = 0 then (some .zcan, s)
      else (none, s)

inductive ZpadRes
  | final (r : GHRes)
  | cont (g : Int) (rest : List Nat)

/-- The inner loop of both getHeaders after a ZPAD byte: skip further
ZPADs, expect ZDLE and a frame-format byte via `noxrd7`, dispatch to the
header readers.  A fall-through (`cont`) continues the outer scan, whose
bottom garbage decrement is applied by the caller; the two garbage
decrements of the fall-through paths in the source are therefore one here
plus one at the call site.  The fuel is instantiated with more than the
stream length, so `fuelOut` is unreachable. -/
def ghZpadScan : Nat → Int → List Nat → ZpadRes
  | 0, _, _ => .final .fuelOut
  | fuel + 1, g, s =>
      match noxrd7 s with
      | none => .final .timeout
      | some (c2, s1) =>
          if c2 = ZPAD then ghZpadScan fuel g s1
          else if c2 = ZDLE then
            match noxrd7 s1 with
            | none => .final .timeout
            | some (c3, s2) =>
                if c3 = ZBIN then .final (mapHdrRes (zrbhdr s2))
                else if c3 = ZBIN32 then .final (mapHdrRes (zrbhdr32 s2))
                else if c3 = ZHEX then .final (mapHdrRes (zrhhdr s2))
                else if c3 = CAN then
                  match plainCanScan 5 s2 with
                  | (some r, _) => .final r
                  | (none, s3) => .cont g s3
                else
                  let g1 := g - 1
                  if g1 = 0 then .final .garbageHit else .cont g1 s2
          else
            let g1 := g - 1
            if g1 = 0 then .final .garbageHit else .cont g1 s1

/-- `Sender.getHeader` (sender.go): the outer scan loop.  A read from an
exhausted stream is the EOF path, which the source maps to TIMEOUT. -/
def senderGetHeader : Nat → Int → List Nat → GHRes
  | 0, _, _ => .fuelOut
  | _ + 1, _, [] => .timeout
  | fuel + 1, g, c :: s1 =>
      if c = 0 then .timeout
      else
        match (if c = CAN then senderCanScan 5 s1 else (none, s1)) with
        | (some r, _) => r
        | (none, s2) =>
            match (if c = ZPAD ∨ c = ZPAD ||| 0x80 then ghZpadScan (s2.length + 1) g s2
                   else ZpadRes.cont g s2) with
            | .final r => r
            | .cont g1 s3 =>
                let g2 := g1 - 1
                if g2 = 0 then .garbageHit
                else senderGetHeader fuel g2 s3

/-- `Receiver.getHeader` (part_000): identical scan except that its CAN
loop has no ZCRCW check. -/
def receiverGetHeader : Nat → Int → List Nat → GHRes
  | 0, _, _ => .fuelOut
  | _ + 1, _, [] => .timeout
  | fuel + 1, g, c :: s1 =>
      if c = 0 then .timeout
      else
        match (if c = CAN then plainCanScan 5 s1 else (none, s1)) with
        | (some r, _) => r
        | (none, s2) =>
            match (if c = ZPAD ∨ c = ZPAD ||| 0x80 then ghZpadScan (s2.length + 1) g s2
                   else ZpadRes.cont g s2) with
            | .final r => r
            | .cont g1 s3 =>
                let g2 := g1 - 1
                if g2 = 0 then .garbageHit
                else receiverGetHeader fuel g2 s3

/-- C10: while scanning for a header, both getHeaders return the TIMEOUT
sentinel immediately when the byte read at the top of the scan loop is
0x00, for every remaining stream, every remaining garbage budget (even 1)
and every fuel, so the zero byte is never charged to the garbage budget. -/
theorem c10_nul_byte_is_timeout (rest : List Nat) (g : Int) (fuel : Nat) :
    senderGetHeader (fuel + 1) g (0 :: rest) = .timeout ∧
    receiverGetHeader (fuel + 1) g (0 :: rest) = .timeout := by
  exact ⟨rfl, rfl⟩

/-- C3: the claim states that exactly five consecutive CAN bytes abort the
session wherever they occur.  On the code this fails.  Inside a data
subpacket the unescaper needs six CANs: on five CANs followed by any other
byte it consumes all six bytes and returns the literal byte 0x18, and only
six consecutive CANs yield GOTCAN.  In the header scan, cancellation is
only reported after a sixth byte is read: with the stream ending after the
five CANs the sender's getHeader reports TIMEOUT, and when the sixth byte
is ZCRCW it reports the ZCRCW-sequence protocol error instead of ZCAN. -/
theorem c3_five_cans_do_not_cancel :
    zdlread [CAN, CAN, CAN, CAN, CAN, 0x41] = .ok CAN [] ∧
    zdlread [CAN, CAN, CAN, CAN, CAN, CAN] = .ok GOTCAN [] ∧
    senderGetHeader 10 3800 [CAN, CAN, CAN, CAN, CAN] = .timeout ∧
    senderGetHeader 10 3800 [CAN, CAN, CAN, CAN, CAN, ZCRCW] = .zcrcwSeq := by
  refine ⟨by decide, by decide, by decide, by decide⟩

/-! ## `Sender.ParseZRINIT` (sender.go) -/

/-- The sender fields read and written by `ParseZRINIT`. -/
structure SenderCfg where
  use32bitCRC : Bool
  escapeCtrl : Bool
  windowSize : Nat
  blockSize : Nat
  maxBlockSize : Nat
  rxflags : Nat
  rxflags2 : Nat
  rxbuflen : Nat
  txwindow : Nat
  txwspac : Nat
deriving DecidableEq, Repr

/-- `Sender.ParseZRINIT` (sender.go).  `rxbuflen` is a Go uint16, so every
store into it truncates modulo 65536; `uint16(s.maxBlockSize)` likewise.
The flag bytes ZF0 and ZF1 are header indices 3 and 2. -/
def parseZRINIT (s : SenderCfg) (hdr : Hdr) : SenderCfg :=
  let rxflags := hdr.p3 % 256
  let rxflags2 := hdr.p2 % 256
  let use32 := s.use32bitCRC && decide (rxflags &&& CANFC32 ≠ 0)
  let escapeCtrl := s.escapeCtrl || decide (rxflags &&& TESCCTL ≠ 0)
  let rxbuflen := ((hdr.p0 % 256) ||| ((hdr.p1 % 256) <<< 8)) % 65536
  let txwindow := if rxflags &&& CANFDX = 0 then 0 else s.windowSize
  let rxbuflen := if rxbuflen < 32 ∨ rxbuflen > s.maxBlockSize % 65536
                  then s.maxBlockSize % 65536 else rxbuflen
  let rxbuflen := if rxbuflen = 0 then 1024 else rxbuflen
  let blockSize := if rxbuflen > 0 ∧ s.blockSize > rxbuflen then rxbuflen else s.blockSize
  let txwspac := if txwindow > 0 then txwindow else s.txwspac
  { s with use32bitCRC := use32, escapeCtrl := escapeCtrl, rxflags := rxflags,
           rxflags2 := rxflags2, rxbuflen := rxbuflen, txwindow := txwindow,
           blockSize := blockSize, txwspac := txwspac }

/-- The default sender configuration fields relevant to ParseZRINIT
(`DefaultSenderConfig` in sender.go: blockSize 1024, maxBlockSize 8192). -/
def defaultSenderCfg : SenderCfg :=
  ⟨true, false, 0, 1024, 8192, 0, 0, 0, 0, 0⟩

/-- C4: the claim states the buffer length is the little-endian 16-bit
value at P0,P1 clamped to [32, maxBlockSize], with a zero value defaulting
to 1024.  On the code the zero-default branch is dead: a zero buffer
length first trips the `< 32` test and becomes maxBlockSize (8192 for the
default configuration), never 1024; and a nonzero value below 32 also
becomes maxBlockSize rather than being clamped up to 32.  The header flag
byte below grants CANFDX and CANFC32 only. -/
theorem c4_zero_buflen_not_1024 :
    (parseZRINIT defaultSenderCfg ⟨0, 0, 0, 0x21⟩).rxbuflen = 8192 ∧
    (parseZRINIT defaultSenderCfg ⟨10, 0, 0, 0x21⟩).rxbuflen = 8192 := by
  exact ⟨by decide, by decide⟩

/-! ## `Session.ReceiveFiles` (part_001) -/

inductive GoErrorType
  | errProtocol
  | errCRC
  | errTimeout
  | errReadFail
  | errCancelled
  | errInvalidFrame
  | errFileSkipped
  | errRemoteCommandDenied
deriving DecidableEq, Repr

/-- A `*zmodem.Error` value together with its heap address.  Go equality
on two `error` interface values holding `*Error` pointers compares the
pointers, which is modelled by the address field; `NewError` always
returns a fresh allocation. -/
structure GoErr where
  addr : Nat
  ty : GoErrorType
  msg : String
deriving DecidableEq, Repr

/-- Go pointer equality between two `*Error` values. -/
def goPtrEq (a b : GoErr) : Bool := a.addr == b.addr

/-- `IsCancelled` (errors.go). -/
def isCancelledErr (e : GoErr) : Bool := e.ty == .errCancelled

inductive RcvFilesOut
  | finished
  | errOut (e : GoErr)
  | noMoreEvents
deriving DecidableEq, Repr

/-- `Session.ReceiveFiles` (part_001).  Each list element is the outcome
of one `Session.ReceiveFile` call (`none` = success).  `alloc` is the next
fresh heap address: the comparison `err == NewError(ErrFileSkipped, "")`
of the source allocates a fresh `*Error` at `alloc` and compares pointers,
and on the short-circuited cancelled path no allocation happens. -/
def receiveFilesLoop (maxFiles : Nat) :
    Nat → Nat → List (Option GoErr) → RcvFilesOut
  | filesReceived, alloc, results =>
      if maxFiles > 0 ∧ filesReceived ≥ maxFiles then .finished
      else
        match results with
        | [] => .noMoreEvents
        | none :: rs => receiveFilesLoop maxFiles (filesReceived + 1) alloc rs
        | some e :: rs =>
            if isCancelledErr e then receiveFilesLoop maxFiles filesReceived alloc rs
            else if goPtrEq e ⟨alloc, .errFileSkipped, ""⟩ then
              receiveFilesLoop maxFiles filesReceived (alloc + 1) rs
            else .errOut e

/-- C6: the claim states a file-skipped error inside a batch is not
returned and the batch continues.  On the code the test
`err == NewError(ErrFileSkipped, "")` compares the received error pointer
with a freshly allocated one and is therefore never true, so a skipped
file (here the first of a two-file batch, its error allocated at address
0 while the fresh comparison value is allocated at address 1) terminates
`ReceiveFiles` with that error instead of continuing to the next file. -/
theorem c6_skipped_file_aborts_batch :
    receiveFilesLoop 0 0 1 [some ⟨0, .errFileSkipped, "foo"⟩, none] =
      .errOut ⟨0, .errFileSkipped, "foo"⟩ := by
  decide

/-! ## Data subpacket readers `zrdata` / `zrdat32` (part_000)

The unescaper is already modelled by `zdlread`; a data reader consumes the
raw stream through it.  The result records the performed buffer stores as
(index, byte) pairs together with the outcome. -/

inductive ZrdOutcome
  | ok (n : Nat) (frameend : Nat) (rest : List Nat)
  | crcErr
  | tooLong
  | ioErr
  | badEscape
  | fuelOut
deriving DecidableEq, Repr

/-- The frame-end tail of `zrdata` (part_000): fold the terminator byte
and the two CRC bytes, require a zero register. -/
def zrdCrc16 (pos fe crc : Nat) (rest : List Nat) : ZrdOutcome :=
  match zdlread rest with
  | .ioErr => .ioErr
  | .badEscape => .badEscape
  | .ok chi rest2 =>
      match zdlread rest2 with
      | .ioErr => .ioErr
      | .badEscape => .badEscape
      | .ok clo rest3 =>
          let c2 := updcrc16 (clo % 256) (updcrc16 (chi % 256) crc)
          if c2 ≠ 0 then .crcErr else .ok pos fe rest3

/-- The frame-end tail of `zrdat32` (part_000): fold the terminator byte
and four little-endian CRC bytes, require the check constant. -/
def zrdCrc32 (pos fe crc : Nat) (rest : List Nat) : ZrdOutcome :=
  match zdlreadN 4 rest with
  | .ioErr => .ioErr
  | .badEscape => .badEscape
  | .ok vals rest4 =>
      match vals with
      | [c0, c1, c2, c3] =>
          let r := updcrc32 (c3 % 256) (updcrc32 (c2 % 256)
            (updcrc32 (c1 % 256) (updcrc32 (c0 % 256) crc)))
          if r ≠ CRC32CheckValue then .crcErr else .ok pos fe rest4
      | _ => .ioErr

/-- `zrdata` (part_000), 16-bit variant: the loop `for pos <= end` storing
bytes only while `pos < end` and answering "data subpacket too long"
otherwise.  `endb` is `len(buf)`. -/
def zrdata16Loop : Nat → Nat → Nat → Nat → List Nat → List (Nat × Nat) × ZrdOutcome
  | 0, _, _, _, _ => ([], .fuelOut)
  | fuel + 1, pos, endb, crc, s =>
      if pos > endb then ([], .tooLong)
      else
        match zdlread s with
        | .ioErr => ([], .ioErr)
        | .badEscape => ([], .badEscape)
        | .ok c rest =>
            if c &&& GOTOR ≠ 0 then
              ([], zrdCrc16 pos c (updcrc16 (c % 256) crc) rest)
            else if c = GOTCAN then ([], .ok pos ZCAN rest)
            else if pos < endb then
              let r := zrdata16Loop fuel (pos + 1) endb (updcrc16 (c % 256) crc) rest
              ((pos, c % 256) :: r.1, r.2)
            else ([], .tooLong)

/-- `zrdat32` (part_000): identical loop with the 32-bit CRC. -/
def zrdat32Loop : Nat → Nat → Nat → Nat → List Nat → List (Nat × Nat) × ZrdOutcome
  | 0, _, _, _, _ => ([], .fuelOut)
  | fuel + 1, pos, endb, crc, s =>
      if pos > endb then ([], .tooLong)
      else
        match zdlread s with
        | .ioErr => ([], .ioErr)
        | .badEscape => ([], .badEscape)
        | .ok c rest =>
            if c &&& GOTOR ≠ 0 then
              ([], zrdCrc32 pos c (updcrc32 (c % 256) crc) rest)
            else if c = GOTCAN then ([], .ok pos ZCAN rest)
            else if pos < endb then
              let r := zrdat32Loop fuel (pos + 1) endb (updcrc32 (c % 256) crc) rest
              ((pos, c % 256) :: r.1, r.2)
            else ([], .tooLong)

/-- `zrdata` dispatch on the CRC width (part_000), entered with pos 0 and
the configured initial register. -/
def zrdata (use32bitCRC : Bool) (bufLen : Nat) (s : List Nat) :
    List (Nat × Nat) × ZrdOutcome :=
  if use32bitCRC then zrdat32Loop (bufLen + 1) 0 bufLen 0xFFFFFFFF s
  else zrdata16Loop (bufLen + 1) 0 bufLen 0 s

lemma zrdata16Loop_writes_lt (fuel : Nat) :
    ∀ pos endb crc s, ∀ x ∈ (zrdata16Loop fuel pos endb crc s).1, x.1 < endb := by
  induction fuel with
  | zero => intro pos endb crc s x hx; simp [zrdata16Loop] at hx
  | succ f ih =>
      intro pos endb crc s x hx
      simp only [zrdata16Loop] at hx
      split at hx
      · simp at hx
      · split at hx
        · simp at hx
        · simp at hx
        · split at hx
          · simp at hx
          · split at hx
            · simp at hx
            · split at hx
              · rcases List.mem_cons.mp hx with h | h
                · subst h; simpa using by assumption
                · exact ih _ _ _ _ _ h
              · simp at hx

lemma zrdat32Loop_writes_lt (fuel : Nat) :
    ∀ pos endb crc s, ∀ x ∈ (zrdat32Loop fuel pos endb crc s).1, x.1 < endb := by
  induction fuel with
  | zero => intro pos endb crc s x hx; simp [zrdat32Loop] at hx
  | succ f ih =>
      intro pos endb crc s x hx
      simp only [zrdat32Loop] at hx
      split at hx
      · simp at hx
      · split at hx
        · simp at hx
        · simp at hx
        · split at hx
          · simp at hx
          · split at hx
            · simp at hx
            · split at hx
              · rcases List.mem_cons.mp hx with h | h
                · subst h; simpa using by assumption
                · exact ih _ _ _ _ _ h
              · simp at hx

/-- C9: both data readers store bytes only at indices strictly below the
buffer length, for every stream, fuel and starting state; and when the
buffer is already full (`pos = len(buf)`) and the next unescaped value is
an ordinary data byte, they answer the "data subpacket too long"
invalid-frame error rather than a terminator, performing no store. -/
theorem c9_zrdata_never_overflows (fuel pos endb crc : Nat) (s : List Nat) :
    (∀ x ∈ (zrdata16Loop fuel pos endb crc s).1, x.1 < endb) ∧
    (∀ x ∈ (zrdat32Loop fuel pos endb crc s).1, x.1 < endb) ∧
    (∀ c rest, zdlread s = .ok c rest → c &&& GOTOR = 0 →
       zrdata16Loop (fuel + 1) endb endb crc s = ([], .tooLong) ∧
       zrdat32Loop (fuel + 1) endb endb crc s = ([], .tooLong)) := by
  refine ⟨zrdata16Loop_writes_lt fuel pos endb crc s,
          zrdat32Loop_writes_lt fuel pos endb crc s, ?_⟩
  intro c rest hz hg
  have hnotor : ¬ (c &&& GOTOR ≠ 0) := by simp [hg]
  have hnotcan : ¬ (c = GOTCAN) := by
    intro hc; subst hc; revert hg; decide
  constructor
  · simp only [zrdata16Loop, hz]
    simp [Nat.lt_irrefl, hnotor, hnotcan]
  · simp only [zrdat32Loop, hz]
    simp [Nat.lt_irrefl, hnotor, hnotcan]

/-- Witness for C9 at a concrete input: buffer length 0, one plain data
byte 0x41 in the stream. -/
theorem c9_zrdata_never_overflows_witness :
    zrdata16Loop 1 0 0 0 [0x41] = ([], .tooLong) ∧
    zrdat32Loop 1 0 0 0 [0x41] = ([], .tooLong) :=
  (c9_zrdata_never_overflows 0 0 0 0 [0x41]).2.2 0x41 [] (by decide) (by decide)

/-! ## `Receiver.ReceiveFile` (part_000)

The loop is embedded over an oracle of per-iteration inputs: what
`getHeader` produced, and (for ZFILE/ZDATA frames) what the data subpacket
reader produced.  Each iteration emits ZRPOS with the current byte count,
then dispatches exactly as the source's switch.  Emissions record the
headers and attention strings written back to the peer. -/

inductive DataRes
  | dOk (n : Nat) (frameEnd : Int)
  | dErr
deriving DecidableEq, Repr

inductive RFEvent
  | hdrTimeout
  | hdrFatal
  | frame (ft : Int) (hdr : Hdr) (d : DataRes)
deriving DecidableEq, Repr

inductive RFEmit
  | zrposE (pos : Nat)
  | zackE (pos : Nat)
  | zackHiE (pos : Nat)
  | attnE
deriving DecidableEq, Repr

inductive RFOut
  | success (bytes : Nat)
  | failTimeout
  | failProtocol
  | failCRC
  | failSkipped
  | failCancelled
  | failDataErr
  | failFatal
  | outOfEvents
deriving DecidableEq, Repr

def prependEmit (e : RFEmit) (r : List RFEmit × RFOut) : List RFEmit × RFOut :=
  (e :: r.1, r.2)

def attnEmits (attnNonEmpty : Bool) : List RFEmit :=
  if attnNonEmpty then [.attnE] else []

/-- `Receiver.ReceiveFile` (part_000): `bytes` is `bytesReceived`,
`errors` the error counter with budget 20.  Every ZACK carries
`uint32(bytesReceived)`; a ZEOF is accepted only at the exact position. -/
def receiveFileLoop (attnNonEmpty : Bool) (bytes errors : Nat) :
    List RFEvent → List RFEmit × RFOut
  | [] => ([.zrposE (bytes % 4294967296)], .outOfEvents)
  | ev :: evs =>
      let pos32 := bytes % 4294967296
      let e0 := RFEmit.zrposE pos32
      match ev with
      | .hdrTimeout =>
          if errors + 1 > 20 then ([e0], .failTimeout)
          else prependEmit e0 (receiveFileLoop attnNonEmpty bytes (errors + 1) evs)
      | .hdrFatal => ([e0], .failFatal)
      | .frame ft hdr d =>
          if ft = (ZNAK : Int) then
            if errors + 1 > 20 then ([e0], .failProtocol)
            else prependEmit e0 (receiveFileLoop attnNonEmpty bytes (errors + 1) evs)
          else if ft = TIMEOUTc then
            if errors + 1 > 20 then ([e0], .failTimeout)
            else prependEmit e0 (receiveFileLoop attnNonEmpty bytes (errors + 1) evs)
          else if ft = (ZFILE : Int) then
            prependEmit e0 (receiveFileLoop attnNonEmpty bytes errors evs)
          else if ft = (ZEOF : Int) then
            if rclhdr hdr ≠ pos32 then
              prependEmit e0 (receiveFileLoop attnNonEmpty bytes 0 evs)
            else ([e0, .zackE pos32], .success bytes)
          else if ft = (ZSKIP : Int) then ([e0], .failSkipped)
          else if ft = (ZDATA : Int) then
            if rclhdr hdr ≠ pos32 then
              if errors + 1 > 20 then ([e0], .failProtocol)
              else
                let r := receiveFileLoop attnNonEmpty bytes (errors + 1) evs
                (e0 :: attnEmits attnNonEmpty ++ r.1, r.2)
            else
              match d with
              | .dErr =>
                  if errors + 1 > 20 then ([e0], .failDataErr)
                  else
                    let r := receiveFileLoop attnNonEmpty bytes (errors + 1) evs
                    (e0 :: attnEmits attnNonEmpty ++ r.1, r.2)
              | .dOk n fe =>
                  if fe = (ZCAN : Int) then ([e0], .failCancelled)
                  else if fe = -1 then
                    if errors + 1 > 20 then ([e0], .failCRC)
                    else
                      let r := receiveFileLoop attnNonEmpty bytes (errors + 1) evs
                      (e0 :: attnEmits attnNonEmpty ++ r.1, r.2)
                  else if fe = TIMEOUTc then
                    if errors + 1 > 20 then ([e0], .failTimeout)
                    else prependEmit e0 (receiveFileLoop attnNonEmpty bytes (errors + 1) evs)
                  else if fe = (GOTCRCW : Int) then
                    let r := receiveFileLoop attnNonEmpty (bytes + n) 0 evs
                    (e0 :: .zackHiE ((bytes + n) % 4294967296) :: r.1, r.2)
                  else if fe = (GOTCRCQ : Int) then
                    let r := receiveFileLoop attnNonEmpty (bytes + n) 0 evs
                    (e0 :: .zackE ((bytes + n) % 4294967296) :: r.1, r.2)
                  else if fe = (GOTCRCG : Int) then
                    prependEmit e0 (receiveFileLoop attnNonEmpty (bytes + n) 0 evs)
                  else if fe = (GOTCRCE : Int) then
                    prependEmit e0 (receiveFileLoop attnNonEmpty (bytes + n) 0 evs)
                  else prependEmit e0 (receiveFileLoop attnNonEmpty bytes errors evs)
          else
            if errors + 1 > 20 then ([e0], .failProtocol)
            else prependEmit e0 (receiveFileLoop attnNonEmpty bytes (errors + 1) evs)

/-- C7: a ZEOF header is accepted exactly when its little-endian position
equals `uint32(bytesReceived)`: on acceptance the receiver emits
ZACK(bytesReceived) and returns success with `bytesReceived` unchanged; on
a position mismatch the frame is ignored and the loop continues (with the
error counter reset), `bytesReceived` again unchanged. -/
theorem c7_zeof_accepts_exact_position (attnNonEmpty : Bool) (bytes errors : Nat)
    (hdr : Hdr) (d : DataRes) (evs : List RFEvent) :
    receiveFileLoop attnNonEmpty bytes errors (RFEvent.frame (ZEOF : Int) hdr d :: evs) =
      (if rclhdr hdr = bytes % 4294967296 then
        ([.zrposE (bytes % 4294967296), .zackE (bytes % 4294967296)], .success bytes)
      else
        (RFEmit.zrposE (bytes % 4294967296) ::
           (receiveFileLoop attnNonEmpty bytes 0 evs).1,
         (receiveFileLoop attnNonEmpty bytes 0 evs).2)) := by
  by_cases h : rclhdr hdr = bytes % 4294967296
  · simp +decide [receiveFileLoop, h, ZEOF, ZNAK, ZFILE, TIMEOUTc]
  · simp +decide [receiveFileLoop, h, ZEOF, ZNAK, ZFILE, TIMEOUTc, prependEmit]

/-! ## `Sender.sendFileData` (sender.go)

The function is embedded as a fueled machine over three phases: `start`
is the function entry (seek, initial state, ZDATA header), `loop` is the
main transmission loop, `zeof` the ZEOF exchange after EOF; the ZRPOS
answer to ZEOF re-enters `start`, mirroring the recursive call in the
source.  `getHeader` answers come from an oracle list; every `getHeader`
call emits a `waited` trace event, every data subpacket a `sent` event
recording the pre-send `bytesSent`, `lastRxPos` and the block length, and
every header transmission a `hdrOut` event. -/

def u32 (a : Nat) : Nat := a % 4294967296

/-- Go uint32 subtraction `uint32(a) - uint32(b)`. -/
def u32sub (a b : Nat) : Nat := (u32 a + 4294967296 - u32 b) % 4294967296

structure SFState where
  content : List Nat
  fpos : Nat
  bytesSent : Nat
  lastRxPos : Nat
  junkCount : Nat
  txwcnt : Nat
  blocksSinceAck : Nat
deriving DecidableEq, Repr

inductive GHEv
  | hErr
  | hOk (ft : Int) (hdr : Hdr)
deriving DecidableEq, Repr

inductive SEv
  | sent (preBytesSent preLastRx n : Nat)
  | waited
  | hdrOut
deriving DecidableEq, Repr

inductive SFOut
  | okDone
  | errReadFail
  | errProtocol
  | errCancelled
  | errSkipped
  | outOfEvents
  | fuelOut
deriving DecidableEq, Repr

/-- Result of the per-frame-end handling: a direct return, a `continue`
that skips the window check, or a fall-through into the window check. -/
inductive HFRes
  | halt (o : SFOut)
  | loopSkip (st : SFState)
  | fall (st : SFState)
deriving DecidableEq, Repr

/-- The ZCRCW / ZCRCQ response handling of `sendFileData` (sender.go),
applied to the post-send state.  `n` is the block length just sent (used
by the ZCRCW timeout path to back up one block). -/
def handleFrameEnd (frameEnd n : Nat) (st : SFState) (o : List GHEv) :
    List SEv × List GHEv × HFRes :=
  if frameEnd = ZCRCW then
    match o with
    | [] => ([.waited], [], .halt .outOfEvents)
    | .hErr :: o1 =>
        if st.junkCount + 1 > 10 then ([.waited], o1, .halt .errProtocol)
        else ([.waited], o1, .loopSkip { st with junkCount := st.junkCount + 1,
                                                 lastRxPos := u32sub st.bytesSent n })
    | .hOk ft hdr :: o1 =>
        if ft = (ZACK : Int) then
          ([.waited], o1, .fall { st with lastRxPos := rclhdr hdr, junkCount := 0,
                                          blocksSinceAck := 0 })
        else if ft = (ZRPOS : Int) then
          let rxpos := rclhdr hdr
          if rxpos ≠ u32 st.bytesSent then
            ([.waited, .hdrOut], o1,
             .loopSkip { st with fpos := rxpos, bytesSent := rxpos, lastRxPos := rxpos })
          else ([.waited], o1, .fall st)
        else if ft = (ZCAN : Int) ∨ ft = (ZABORT : Int) then
          ([.waited], o1, .halt .errCancelled)
        else if ft = (ZSKIP : Int) then ([.waited], o1, .halt .errSkipped)
        else if st.junkCount + 1 > 10 then ([.waited], o1, .halt .errProtocol)
        else ([.waited], o1, .fall { st with junkCount := st.junkCount + 1 })
  else if frameEnd = ZCRCQ then
    match o with
    | [] => ([.waited], [], .halt .outOfEvents)
    | .hErr :: o1 =>
        if st.junkCount + 1 > 5 then ([.waited], o1, .halt .errProtocol)
        else ([.waited], o1, .fall { st with junkCount := st.junkCount + 1 })
    | .hOk ft hdr :: o1 =>
        if ft = (ZACK : Int) then
          ([.waited], o1, .fall { st with lastRxPos := rclhdr hdr, junkCount := 0,
                                          blocksSinceAck := 0 })
        else if ft = (ZCAN : Int) then ([.waited], o1, .halt .errCancelled)
        else if st.junkCount + 1 > 5 then ([.waited], o1, .halt .errProtocol)
        else ([.waited], o1, .fall { st with junkCount := st.junkCount + 1 })
  else ([], o, .fall st)

inductive WWRes
  | proceed (lr : Option Nat)
  | halt (o : SFOut)
deriving DecidableEq, Repr

/-- The window-ACK retry loop of `sendFileData` (sender.go), entered with
3 retries: a header error on the last retry fails, a ZACK breaks out with
the acknowledged position, any other frame fails. -/
def windowWait : Nat → List GHEv → List SEv × List GHEv × WWRes
  | 0, o => ([], o, .proceed none)
  | _ + 1, [] => ([.waited], [], .halt .outOfEvents)
  | k + 1, ev :: o1 =>
      match ev with
      | .hErr =>
          if k = 0 then ([.waited], o1, .halt .errProtocol)
          else
            let r := windowWait k o1
            (.waited :: r.1, r.2.1, r.2.2)
      | .hOk ft hdr =>
          if ft = (ZACK : Int) then ([.waited], o1, .proceed (some (rclhdr hdr)))
          else if ft = (ZCAN : Int) then ([.waited], o1, .halt .errCancelled)
          else ([.waited], o1, .halt .errProtocol)

inductive WCRes
  | halt (o : SFOut)
  | cont (st : SFState)
deriving DecidableEq, Repr

/-- The post-send window check of `sendFileData` (sender.go): when the
window is enabled and `uint32(bytesSent) - lastRxPos` reaches
`uint32(txwindow)`, block in the retry loop for a ZACK. -/
def windowCheck (w : Nat) (st : SFState) (o : List GHEv) :
    List SEv × List GHEv × WCRes :=
  if w > 0 ∧ u32sub st.bytesSent st.lastRxPos ≥ w % 4294967296 then
    match windowWait 3 o with
    | (evs, o1, .halt out) => (evs, o1, .halt out)
    | (evs, o1, .proceed none) => (evs, o1, .cont st)
    | (evs, o1, .proceed (some lr)) =>
        (evs, o1, .cont { st with lastRxPos := lr, blocksSinceAck := 0 })
  else ([], o, .cont st)

inductive SFPhase
  | start (content : List Nat) (startPos : Nat)
  | loop (st : SFState)
  | zeof (st : SFState)
deriving DecidableEq, Repr

/-- `Sender.sendFileData` (sender.go) as a fueled three-phase machine.
`w` is `txwindow`, `wspac` is `txwspac`, and the per-iteration block is
`min blockSize (remaining file bytes)` with EOF when it is empty. -/
def sfMachine (w wspac blockSize : Nat) : Nat → SFPhase → List GHEv → List SEv × SFOut
  | 0, _, _ => ([], .fuelOut)
  | fuel + 1, .start content startPos, o =>
      let lastRx := if startPos > 0 then startPos - 1 else 4294967295
      let r := sfMachine w wspac blockSize fuel
                 (.loop ⟨content, startPos, startPos, lastRx, 0, 0, 0⟩) o
      (.hdrOut :: r.1, r.2)
  | fuel + 1, .loop st, o =>
      let n := min blockSize (st.content.length - st.fpos)
      let eofSeen := n = 0
      let sel : Nat × SFState :=
        if eofSeen then (ZCRCE, st)
        else if st.junkCount > 3 then (ZCRCW, st)
        else if st.bytesSent = st.lastRxPos then (ZCRCW, st)
        else if w > 0 ∧ st.txwcnt + n ≥ wspac then (ZCRCQ, { st with txwcnt := 0 })
        else if st.blocksSinceAck ≥ 64 then (ZCRCQ, { st with blocksSinceAck := 0 })
        else (ZCRCG, st)
      let st1 := { sel.2 with blocksSinceAck := sel.2.blocksSinceAck + 1 }
      let sentEv := SEv.sent st.bytesSent st.lastRxPos n
      let st2 := { st1 with bytesSent := st1.bytesSent + n, txwcnt := st1.txwcnt + n,
                            fpos := st1.fpos + n }
      match handleFrameEnd sel.1 n st2 o with
      | (evs, _, .halt out) => (sentEv :: evs, out)
      | (evs, o1, .loopSkip st3) =>
          let r := sfMachine w wspac blockSize fuel (.loop st3) o1
          (sentEv :: evs ++ r.1, r.2)
      | (evs, o1, .fall st3) =>
          match windowCheck w st3 o1 with
          | (evs2, _, .halt out) => (sentEv :: (evs ++ evs2), out)
          | (evs2, o2, .cont st4) =>
              if eofSeen then
                let r := sfMachine w wspac blockSize fuel (.zeof st4) o2
                (sentEv :: (evs ++ evs2 ++ r.1), r.2)
              else
                let r := sfMachine w wspac blockSize fuel (.loop st4) o2
                (sentEv :: (evs ++ evs2 ++ r.1), r.2)
  | fuel + 1, .zeof st, o =>
      match o with
      | [] => ([.hdrOut, .waited], .outOfEvents)
      | .hErr :: _ => ([.hdrOut, .waited], .errReadFail)
      | .hOk ft hdr :: o1 =>
          if ft = (ZACK : Int) then ([.hdrOut, .waited], .okDone)
          else if ft = (ZRPOS : Int) then
            let r := sfMachine w wspac blockSize fuel (.start st.content (rclhdr hdr)) o1
            (.hdrOut :: .waited :: r.1, r.2)
          else if ft = (ZRINIT : Int) then ([.hdrOut, .waited], .okDone)
          else if ft = (ZSKIP : Int) then ([.hdrOut, .waited], .errSkipped)
          else ([.hdrOut, .waited], .errProtocol)

/-- C8 trace predicate: scanning a trace, after a `sent` event and before
any further `waited`, every other `sent` event must start inside the
window, i.e. its recorded `uint32(bytesSent) - lastRxPos` is below
`uint32(txwindow)`.  `waited` resets the obligation; header emissions are
transparent. -/
def trOkB (w : Nat) : Bool → List SEv → Bool
  | _, [] => true
  | _, .waited :: es => trOkB w false es
  | b, .hdrOut :: es => trOkB w b es
  | false, .sent _ _ _ :: es => trOkB w true es
  | true, .sent b lr _ :: es =>
      decide (u32sub b lr < w % 4294967296) && trOkB w true es

def isSent : SEv → Bool
  | .sent _ _ _ => true
  | _ => false

lemma trOkB_false_append_noSent (w : Nat) :
    ∀ evs tl, (∀ e ∈ evs, isSent e = false) →
      trOkB w false (evs ++ tl) = trOkB w false tl := by
  intro evs
  induction evs with
  | nil => intro tl _; rfl
  | cons e es ih =>
      intro tl h
      cases e with
      | sent a b c => exact absurd (h (SEv.sent a b c) (by simp)) (by simp [isSent])
      | waited => simpa [trOkB] using ih tl (fun e he => h e (by simp [he]))
      | hdrOut => simpa [trOkB] using ih tl (fun e he => h e (by simp [he]))

lemma trOkB_noSent (w : Nat) :
    ∀ evs (b : Bool), (∀ e ∈ evs, isSent e = false) → trOkB w b evs = true := by
  intro evs
  induction evs with
  | nil => intro b _; cases b <;> rfl
  | cons e es ih =>
      intro b h
      cases e with
      | sent a bb c => exact absurd (h (SEv.sent a bb c) (by simp)) (by simp [isSent])
      | waited => simpa [trOkB] using ih false (fun e he => h e (by simp [he]))
      | hdrOut =>
          cases b <;> simpa [trOkB] using ih _ (fun e he => h e (by simp [he]))

lemma windowWait_all_waited :
    ∀ k o, ∀ e ∈ (windowWait k o).1, e = SEv.waited := by
  intro k
  induction k with
  | zero => intro o e he; simp [windowWait] at he
  | succ k ih =>
      intro o e he
      cases o with
      | nil => simp [windowWait] at he; exact he
      | cons ev o1 =>
          cases ev with
          | hErr =>
              by_cases hk : k = 0
              · simp [windowWait, hk] at he; exact he
              · simp [windowWait, hk] at he
                rcases he with he | he
                · exact he
                · exact ih o1 e he
          | hOk ft hdr =>
              by_cases hA : ft = (ZACK : Int)
              · simp +decide [windowWait, hA] at he; exact he
              · by_cases hC : ft = (ZCAN : Int) <;>
                  · simp +decide [windowWait, hA, hC] at he; exact he

lemma windowWait_ne_nil :
    ∀ k o, (windowWait (k + 1) o).1 ≠ [] := by
  intro k o
  cases o with
  | nil => simp [windowWait]
  | cons ev o1 =>
      cases ev with
      | hErr =>
          by_cases hk : k = 0 <;> simp [windowWait, hk]
      | hOk ft hdr =>
          by_cases hA : ft = (ZACK : Int)
          · simp +decide [windowWait, hA]
          · by_cases hC : ft = (ZCAN : Int) <;> simp +decide [windowWait, hA, hC]

lemma handleFrameEnd_spec (fe n : Nat) (st : SFState) (o : List GHEv)
    (evs : List SEv) (o1 : List GHEv) (res : HFRes)
    (h : handleFrameEnd fe n st o = (evs, o1, res)) :
    (evs = [] ∧ res = HFRes.fall st)
    ∨ evs = [SEv.waited] ∨ evs = [SEv.waited, SEv.hdrOut] := by
  by_cases h1 : fe = ZCRCW
  · cases o with
    | nil =>
        simp +decide [handleFrameEnd, h1] at h
        right; left; exact h.1.symm
    | cons ev oo =>
        cases ev with
        | hErr =>
            by_cases hj : st.junkCount + 1 > 10 <;>
              · simp +decide [handleFrameEnd, h1, hj] at h
                right; left; exact h.1.symm
        | hOk ft hdr =>
            by_cases hA : ft = (ZACK : Int)
            · simp +decide [handleFrameEnd, h1, hA] at h
              right; left; exact h.1.symm
            · by_cases hR : ft = (ZRPOS : Int)
              · by_cases hx : rclhdr hdr = u32 st.bytesSent
                · simp +decide [handleFrameEnd, h1, hA, hR, hx] at h
                  right; left; exact h.1.symm
                · simp +decide [handleFrameEnd, h1, hA, hR, hx] at h
                  right; right; exact h.1.symm
              · by_cases hC : ft = (ZCAN : Int) ∨ ft = (ZABORT : Int)
                · simp +decide [handleFrameEnd, h1, hA, hR, hC] at h
                  right; left; exact h.1.symm
                · by_cases hS : ft = (ZSKIP : Int)
                  · simp +decide [handleFrameEnd, h1, hA, hR, hC, hS] at h
                    right; left; exact h.1.symm
                  · by_cases hj : st.junkCount + 1 > 10 <;>
                      · simp +decide [handleFrameEnd, h1, hA, hR, hC, hS, hj] at h
                        right; left; exact h.1.symm
  · by_cases h2 : fe = ZCRCQ
    · cases o with
      | nil =>
          simp +decide [handleFrameEnd, h1, h2] at h
          right; left; exact h.1.symm
      | cons ev oo =>
          cases ev with
          | hErr =>
              by_cases hj : st.junkCount + 1 > 5 <;>
                · simp +decide [handleFrameEnd, h1, h2, hj] at h
                  right; left; exact h.1.symm
          | hOk ft hdr =>
              by_cases hA : ft = (ZACK : Int)
              · simp +decide [handleFrameEnd, h1, h2, hA] at h
                right; left; exact h.1.symm
              · by_cases hC : ft = (ZCAN : Int)
                · simp +decide [handleFrameEnd, h1, h2, hA, hC] at h
                  right; left; exact h.1.symm
                · by_cases hj : st.junkCount + 1 > 5 <;>
                    · simp +decide [handleFrameEnd, h1, h2, hA, hC, hj] at h
                      right; left; exact h.1.symm
    · simp +decide [handleFrameEnd, h1, h2] at h
      left; exact ⟨h.1, h.2.2.symm⟩

lemma windowCheck_spec (w : Nat) (st : SFState) (o : List GHEv)
    (evs2 : List SEv) (o2 : List GHEv) (res : WCRes)
    (h : windowCheck w st o = (evs2, o2, res)) :
    (evs2 = [] ∧ res = WCRes.cont st ∧
       (0 < w → u32sub st.bytesSent st.lastRxPos < w % 4294967296))
    ∨ (evs2 ≠ [] ∧ ∀ e ∈ evs2, e = SEv.waited) := by
  by_cases hc : w > 0 ∧ u32sub st.bytesSent st.lastRxPos ≥ w % 4294967296
  · right
    have hne : (windowWait 3 o).1 ≠ [] := windowWait_ne_nil 2 o
    have hall := windowWait_all_waited 3 o
    rcases hw3 : windowWait 3 o with ⟨evsW, oW, rW⟩
    rw [hw3] at hne hall
    simp only [windowCheck, hc, if_true, hw3] at h
    cases rW with
    | halt out =>
        simp at h
        refine ⟨?_, ?_⟩
        · rw [← h.1]; exact hne
        · intro e he; exact hall e (by rw [h.1]; exact he)
    | proceed lr =>
        cases lr with
        | none =>
            simp at h
            refine ⟨?_, ?_⟩
            · rw [← h.1]; exact hne
            · intro e he; exact hall e (by rw [h.1]; exact he)
        | some v =>
            simp at h
            refine ⟨?_, ?_⟩
            · rw [← h.1]; exact hne
            · intro e he; exact hall e (by rw [h.1]; exact he)
  · simp only [windowCheck, hc, if_false, Prod.mk.injEq] at h
    left
    refine ⟨h.1.symm, h.2.2.symm, ?_⟩
    intro hw0
    rcases not_and_or.mp hc with h1 | h2
    · exact absurd hw0 h1
    · omega

lemma sfMachine_trOk (w wspac blockSize : Nat) (hw : 0 < w) :
    ∀ fuel (phase : SFPhase) (o : List GHEv),
      trOkB w false (sfMachine w wspac blockSize fuel phase o).1 = true ∧
      (∀ st, phase = SFPhase.loop st →
        u32sub st.bytesSent st.lastRxPos < w % 4294967296 →
        trOkB w true (sfMachine w wspac blockSize fuel phase o).1 = true) ∧
      (∀ st, phase = SFPhase.zeof st →
        trOkB w true (sfMachine w wspac blockSize fuel phase o).1 = true) := by
  intro fuel
  induction fuel with
  | zero =>
      intro phase o
      exact ⟨rfl, fun st h hb => rfl, fun st h => rfl⟩
  | succ f ih =>
      intro phase o
      cases phase with
      | start content startPos =>
          refine ⟨?_, ⟨fun st h => by simp at h, fun st h => by simp at h⟩⟩
          have h1 := (ih (SFPhase.loop ⟨content, startPos, startPos,
            (if startPos > 0 then startPos - 1 else 4294967295), 0, 0, 0⟩) o).1
          simpa [sfMachine, trOkB] using h1
      | zeof st =>
          have hzeof : ∀ bb : Bool,
              trOkB w bb (sfMachine w wspac blockSize (f + 1) (SFPhase.zeof st) o).1 = true := by
            intro bb
            cases o with
            | nil => cases bb <;> simp [sfMachine, trOkB]
            | cons ev o1 =>
                cases ev with
                | hErr => cases bb <;> simp [sfMachine, trOkB]
                | hOk ft hdr =>
                    by_cases hA : ft = (ZACK : Int)
                    · cases bb <;> simp +decide [sfMachine, hA, trOkB]
                    · by_cases hR : ft = (ZRPOS : Int)
                      · have h1 := (ih (SFPhase.start st.content (rclhdr hdr)) o1).1
                        cases bb <;> simp +decide [sfMachine, hA, hR, trOkB, h1]
                      · by_cases hI : ft = (ZRINIT : Int)
                        · cases bb <;> simp +decide [sfMachine, hA, hR, hI, trOkB]
                        · by_cases hS : ft = (ZSKIP : Int) <;>
                            cases bb <;> simp +decide [sfMachine, hA, hR, hI, hS, trOkB]
          exact ⟨hzeof false, ⟨fun st' h => by simp at h, fun st' h => hzeof true⟩⟩
      | loop st =>
          have main : ∀ bb : Bool,
              (bb = true → u32sub st.bytesSent st.lastRxPos < w % 4294967296) →
              trOkB w bb (sfMachine w wspac blockSize (f + 1) (SFPhase.loop st) o).1 = true := by
            intro bb hb
            simp only [sfMachine]
            split
            case _ evs oX out heq =>
              rcases handleFrameEnd_spec _ _ _ _ _ _ _ heq with ⟨hevs, hres⟩ | hevs | hevs
              · exact absurd hres (by simp)
              · subst hevs
                cases bb with
                | false => simp [trOkB]
                | true => simp [trOkB]; exact hb rfl
              · subst hevs
                cases bb with
                | false => simp [trOkB]
                | true => simp [trOkB]; exact hb rfl
            case _ evs o1 st3 heq =>
              have h1 := (ih (SFPhase.loop st3) o1).1
              rcases handleFrameEnd_spec _ _ _ _ _ _ _ heq with ⟨hevs, hres⟩ | hevs | hevs
              · exact absurd hres (by simp)
              · subst hevs
                cases bb with
                | false => simpa [trOkB] using h1
                | true => simp [trOkB, h1]; exact hb rfl
              · subst hevs
                cases bb with
                | false => simpa [trOkB] using h1
                | true => simp [trOkB, h1]; exact hb rfl
            case _ evs o1 st3 heq =>
              split
              case _ evs2 oY out heq2 =>
                rcases windowCheck_spec _ _ _ _ _ _ heq2 with ⟨hevs2, hres2, _⟩ | ⟨hne2, hall2⟩
                · exact absurd hres2 (by simp)
                · have hns2 : ∀ e ∈ evs2, isSent e = false := by
                    intro e he; rw [hall2 e he]; rfl
                  have ht2 := trOkB_noSent w evs2 true hns2
                  have hf2 := trOkB_noSent w evs2 false hns2
                  rcases handleFrameEnd_spec _ _ _ _ _ _ _ heq with ⟨hevs, hres⟩ | hevs | hevs
                  · subst hevs
                    cases bb with
                    | false => simpa [trOkB] using ht2
                    | true => simp [trOkB, ht2]; exact hb rfl
                  · subst hevs
                    cases bb with
                    | false => simpa [trOkB] using hf2
                    | true => simp [trOkB, hf2]; exact hb rfl
                  · subst hevs
                    cases bb with
                    | false => simpa [trOkB] using hf2
                    | true => simp [trOkB, hf2]; exact hb rfl
              case _ evs2 o2 st4 heq2 =>
                split
                case _ hn =>
                  have c1 := (ih (SFPhase.zeof st4) o2).1
                  have c3 := (ih (SFPhase.zeof st4) o2).2.2 st4 rfl
                  rcases windowCheck_spec _ _ _ _ _ _ heq2 with ⟨hevs2, hres2, hbound⟩ | ⟨hne2, hall2⟩
                  · subst hevs2
                    rcases handleFrameEnd_spec _ _ _ _ _ _ _ heq with ⟨hevs, hres⟩ | hevs | hevs
                    · subst hevs
                      cases bb with
                      | false => simpa [trOkB] using c3
                      | true => simp [trOkB, c3]; exact hb rfl
                    · subst hevs
                      cases bb with
                      | false => simpa [trOkB] using c1
                      | true => simp [trOkB, c1]; exact hb rfl
                    · subst hevs
                      cases bb with
                      | false => simpa [trOkB] using c1
                      | true => simp [trOkB, c1]; exact hb rfl
                  · have hns2 : ∀ e ∈ evs2, isSent e = false := by
                      intro e he; rw [hall2 e he]; rfl
                    rcases evs2 with _ | ⟨e2, tail2⟩
                    · exact absurd rfl hne2
                    · have he2 : e2 = SEv.waited := hall2 _ (by simp)
                      subst he2
                      have hnt : ∀ e ∈ tail2, isSent e = false := by
                        intro e he; exact hns2 e (by simp [he])
                      have hrw : ∀ tl, trOkB w false (tail2 ++ tl) = trOkB w false tl :=
                        fun tl => trOkB_false_append_noSent w tail2 tl hnt
                      rcases handleFrameEnd_spec _ _ _ _ _ _ _ heq with ⟨hevs, hres⟩ | hevs | hevs
                      · subst hevs
                        cases bb with
                        | false => simp [trOkB, hrw, c1]
                        | true => simp [trOkB, hrw, c1]; exact hb rfl
                      · subst hevs
                        cases bb with
                        | false => simp [trOkB, hrw, c1]
                        | true => simp [trOkB, hrw, c1]; exact hb rfl
                      · subst hevs
                        cases bb with
                        | false => simp [trOkB, hrw, c1]
                        | true => simp [trOkB, hrw, c1]; exact hb rfl
                case _ hn =>
                  have c1 := (ih (SFPhase.loop st4) o2).1
                  rcases windowCheck_spec _ _ _ _ _ _ heq2 with ⟨hevs2, hres2, hbound⟩ | ⟨hne2, hall2⟩
                  · subst hevs2
                    injection hres2 with h43
                    subst h43
                    have c2 := (ih (SFPhase.loop st4) o2).2.1 st4 rfl (hbound hw)
                    rcases handleFrameEnd_spec _ _ _ _ _ _ _ heq with ⟨hevs, hres⟩ | hevs | hevs
                    · subst hevs
                      cases bb with
                      | false => simpa [trOkB] using c2
                      | true => simp [trOkB, c2]; exact hb rfl
                    · subst hevs
                      cases bb with
                      | false => simpa [trOkB] using c1
                      | true => simp [trOkB, c1]; exact hb rfl
                    · subst hevs
                      cases bb with
                      | false => simpa [trOkB] using c1
                      | true => simp [trOkB, c1]; exact hb rfl
                  · have hns2 : ∀ e ∈ evs2, isSent e = false := by
                      intro e he; rw [hall2 e he]; rfl
                    rcases evs2 with _ | ⟨e2, tail2⟩
                    · exact absurd rfl hne2
                    · have he2 : e2 = SEv.waited := hall2 _ (by simp)
                      subst he2
                      have hnt : ∀ e ∈ tail2, isSent e = false := by
                        intro e he; exact hns2 e (by simp [he])
                      have hrw : ∀ tl, trOkB w false (tail2 ++ tl) = trOkB w false tl :=
                        fun tl => trOkB_false_append_noSent w tail2 tl hnt
                      rcases handleFrameEnd_spec _ _ _ _ _ _ _ heq with ⟨hevs, hres⟩ | hevs | hevs
                      · subst hevs
                        cases bb with
                        | false => simp [trOkB, hrw, c1]
                        | true => simp [trOkB, hrw, c1]; exact hb rfl
                      · subst hevs
                        cases bb with
                        | false => simp [trOkB, hrw, c1]
                        | true => simp [trOkB, hrw, c1]; exact hb rfl
                      · subst hevs
                        cases bb with
                        | false => simp [trOkB, hrw, c1]
                        | true => simp [trOkB, hrw, c1]; exact hb rfl
          refine ⟨main false (by simp), ⟨?_, fun st' h => by simp at h⟩⟩
          intro st' h hbound
          injection h with h'
          subst h'
          exact main true (fun _ => hbound)

/-- C2: the claim states the write/read roundtrip returns (t, h) for all
three header variants.  On the code the binary variants fail as soon as a
header byte must be escaped: writing type ZRQINIT with header bytes
(0x18, 0, 0, 0) and reading the emitted bytes back yields the bad-escape
error in both the 16-bit and the 32-bit variant, because the decoder
rejects every ordinary escaped byte.  The hex variant does roundtrip on
the same input. -/
theorem c2_binary_header_roundtrip_fails :
    zrbhdr (zsbhdr16Body ZRQINIT ⟨0x18, 0, 0, 0⟩) = .badEscape ∧
    zrbhdr32 (zsbhdr32Body ZRQINIT ⟨0x18, 0, 0, 0⟩) = .badEscape ∧
    zrhhdr ((zshhdr ZRINIT ⟨0x18, 0, 0, 0⟩).drop 4) = .ok ZRINIT ⟨0x18, 0, 0, 0⟩ [0x21] := by
  refine ⟨by decide, by decide, by decide⟩

/-- C5: the claim states the hex header ends with CR, LF-with-high-bit and
a lone XON byte (0x11) for types other than ZFIN/ZACK.  The code emits the
byte 0x21 (an octal/hex transcription of the C constant 021) where the
claim requires XON = 0x11. -/
theorem c5_hex_header_bytes :
    zshhdr ZRQINIT (stohdr 0) =
      [0x2A, 0x2A, 0x18, 0x42,
       48, 48, 48, 48, 48, 48, 48, 48, 48, 48, 48, 48, 48, 48,
       0x0D, 0x8A, 0x21] ∧
    XON = 0x11 := by
  exact ⟨by decide, by decide⟩

end GoLrzsz

namespace GoLrzsz

/-- C8: with a positive window, the sender never transmits a data
subpacket whose pre-send `uint32(bytesSent) - lastRxPos` has reached
`uint32(txwindow)` unless a `getHeader` wait occurred since the previous
subpacket: along every trace of `sendFileData`, for any two `sent` events
with no `waited` between them, the second starts strictly inside the
window. -/
theorem c8_sender_respects_window (w wspac blockSize fuel startPos : Nat)
    (content : List Nat) (o : List GHEv) (hw : 0 < w) :
    trOkB w false
      (sfMachine w wspac blockSize fuel (SFPhase.start content startPos) o).1 = true :=
  (sfMachine_trOk w wspac blockSize hw fuel (SFPhase.start content startPos) o).1

/-- Witness for C8: a concrete run with window 1 (empty file: one ZCRCE
subpacket, then the window check blocks on an exhausted oracle). -/
theorem c8_sender_respects_window_witness :
    0 < 1 ∧
    trOkB 1 false (sfMachine 1 1 1 3 (SFPhase.start [] 0) []).1 = true :=
  ⟨by decide, c8_sender_respects_window 1 1 1 3 0 [] [] (by decide)⟩

end GoLrzsz

namespace GoLrzsz

/-- Witness for C7 at a concrete input: 5 bytes received, ZEOF carrying
position 5 is accepted; ZACK(5) is emitted and the count is unchanged. -/
theorem c7_zeof_accepts_exact_position_witness :
    receiveFileLoop false 5 2 [RFEvent.frame (ZEOF : Int) (stohdr 5) .dErr] =
      ([.zrposE 5, .zackE 5], .success 5) := by
  have h := c7_zeof_accepts_exact_position false 5 2 (stohdr 5) .dErr []
  rw [h]
  decide

/-- Witness for C10 at a concrete input: a single NUL byte with garbage
budget 1 yields TIMEOUT in both getHeaders. -/
theorem c10_nul_byte_is_timeout_witness :
    senderGetHeader 1 1 [0] = .timeout ∧ receiverGetHeader 1 1 [0] = .timeout :=
  c10_nul_byte_is_timeout [] 1 0

end GoLrzsz
